import Mathlib

set_option maxRecDepth 100000

/-!
Shallow embedding of the crawl-and-match engine of `Web_Crawler_App_14.py`.

Python strings are Lean `String`s; the Python string primitives used by the
source (`lower`, `strip`, `replace`, substring tests, slicing) are modelled
on `List Char`.  External capabilities of the source (HTTP fetch, `urljoin`,
`urlparse(...).netloc`, HTML parsing) are parameters gathered in `Env`; a
parsed document is the record of the three BeautifulSoup queries the source
performs on it.
-/

/-- Does the first list start with the second (Python `startswith`)? -/
def leadsWith : List Char → List Char → Bool
  | _, [] => true
  | [], _ :: _ => false
  | c :: cs, p :: ps => c = p && leadsWith cs ps

/-- Does `pat` occur contiguously in `l` (Python `pat in l`)? -/
def hasSubL : List Char → List Char → Bool
  | [], pat => pat.isEmpty
  | c :: cs, pat => leadsWith (c :: cs) pat || hasSubL cs pat

/-- Does `l` end with `pat` (Python `endswith`)? -/
def endsWithL (l pat : List Char) : Bool :=
  leadsWith l.reverse pat.reverse

/-- Python `str.lower()` (the source only feeds it ASCII data). -/
def pyLower (l : List Char) : List Char :=
  l.map Char.toLower

/-- Python `str.strip()`. -/
def pyStrip (l : List Char) : List Char :=
  ((l.dropWhile Char.isWhitespace).reverse.dropWhile Char.isWhitespace).reverse

/-- Helper for `pyReplaceAll`; the fuel starts at the length of the list and
each step consumes at least one character, so the fuel never runs out. -/
def replAux (pat repl : List Char) : Nat → List Char → List Char
  | _, [] => []
  | 0, l => l
  | fuel + 1, c :: rest =>
    if pat ≠ [] ∧ leadsWith (c :: rest) pat = true then
      repl ++ replAux pat repl fuel (List.drop (pat.length - 1) rest)
    else c :: replAux pat repl fuel rest

/-- Python `str.replace(pat, repl)`: replaces every non-overlapping
occurrence, scanning left to right. -/
def pyReplaceAll (pat repl l : List Char) : List Char :=
  replAux pat repl l.length l

/-- Python substring test `a in b` on `String`s. -/
def hasSubStr (a b : String) : Bool :=
  hasSubL b.data a.data

/-- The host normalization performed inside `is_subdomain_of`
(src lines 15-16): `replace("www.", "")` — every occurrence, anywhere in
the string, case-sensitively — followed by `lower()`. -/
def normHost (s : String) : List Char :=
  pyLower (pyReplaceAll ['w', 'w', 'w', '.'] [] s.data)

/-- The function `is_subdomain_of` (src lines 14-17): the domain classifier. -/
def is_subdomain_of (url_netloc main_domain : String) : Bool :=
  let m := normHost main_domain
  let u := normHost url_netloc
  endsWithL u ('.' :: m) || u == m

/-- The domain classifier as the specification words it: strip one leading
"www." and lower-case.  This definition follows the spec text only, to be
compared with the source implementation `is_subdomain_of`. -/
def specIsSameSite (hostA mainHost : String) : Bool :=
  let norm := fun (s : String) =>
    pyLower (if leadsWith s.data ['w', 'w', 'w', '.'] then s.data.drop 4 else s.data)
  let m := norm mainHost
  let u := norm hostA
  u == m || endsWithL u ('.' :: m)

/-- One row of the longest-common-subsequence dynamic program.  `prev` is
the previous row (its head is the diagonal value), `left` the value to the
left of the cell being computed. -/
def lcsRow (c : Char) : List Char → List Nat → Nat → List Nat
  | b :: bs, diag :: prev, left =>
    let up := prev.headD 0
    let cur := if c = b then diag + 1 else max up left
    cur :: lcsRow c bs prev cur
  | _, _, _ => []

/-- Edit-distance based similarity on a 0-100 scale, rounded to the nearest
integer: with `p = 200 * lcs` and `q` the sum of the two lengths this is
`round(100 * (1 - indelDistance / q))`.  Two empty strings score 100. -/
def roundScore (p q : Nat) : Nat :=
  if q = 0 then 100 else (2 * p + q) / (2 * q)

/-- Best similarity of `kw` against any prefix of `suf` (including the
empty prefix), computed with one LCS row sweep per character of `suf`. -/
def prefBest (kw : List Char) (suf : List Char) : Nat :=
  let k := kw.length
  let out := suf.foldl
    (fun (st : List Nat × Nat × Nat) c =>
      let row := 0 :: lcsRow c kw st.1 0
      let i := st.2.1 + 1
      let sc := roundScore (200 * row.getLastD 0) (k + i)
      (row, i, max st.2.2 sc))
    (List.replicate (k + 1) 0, 0, roundScore 0 k)
  out.2.2

/-- Best similarity of `sh` against any contiguous substring of `lo`
(substrings are the prefixes of the suffixes). -/
def bestSubScore (sh lo : List Char) : Nat :=
  lo.tails.foldl (fun acc suf => max acc (prefBest sh suf)) 0

/-- Modelled from the spec: `fuzz.partial_ratio` of the external fuzzywuzzy
similarity library (not part of this repository).  Per the spec it computes
the best-aligned substring match between the shorter and the longer string
and returns a 0-100 similarity score based on the edit distance of that
alignment. -/
def partialSim (s1 s2 : List Char) : Nat :=
  if s1.length ≤ s2.length then bestSubScore s1 s2 else bestSubScore s2 s1

/-- The fixed keyword set of `process_url` (src line 102). -/
def keywords : List String :=
  ["gowithguide", "go with guide", "go-with-guide", "87121"]

/-- The function `contains_keyword` (src lines 20-31): the matcher. -/
def contains_keyword (text : String) (kws : List String) : Bool :=
  if text = "" then false
  else
    let text_lower := pyStrip (pyLower text.data)
    let exact_match := kws.any fun kw => hasSubL text_lower (pyLower kw.data)
    let fuzzy_match := kws.any fun kw => 85 ≤ partialSim text_lower (pyLower kw.data)
    exact_match || fuzzy_match

/-- Is this character one of the two quote characters of the character
class in the background-image regex (src line 150)? -/
def isQuoteCh (c : Char) : Bool :=
  c.toNat = 39 || c.toNat = 34

/-- One attempt of the regex `url\((quote)?(.*?)(quote)?\)` at a position
right after a literal `url(`: the greedy optional quote is consumed, then
the lazy group stops at the first viable closing position.  `.` does not
match a newline, so a newline before the closing parenthesis kills the
attempt. -/
def bgTry (rest : List Char) : Option (List Char) :=
  let afterQ := match rest with
    | c :: tail => if isQuoteCh c then tail else rest
    | [] => rest
  match afterQ.findIdx? (fun c => c = ')') with
  | none => none
  | some j =>
    let inner := afterQ.take j
    if inner.any (fun c => c = '\n') then none
    else some (if inner ≠ [] ∧ isQuoteCh (inner.getLastD ' ') = true then inner.dropLast else inner)

/-- Python `re.search` of the background-image pattern over a style
string (src lines 150-152): try each position left to right, matching the
literal `url(` and then `bgTry`. -/
def bgSearch : List Char → Option (List Char)
  | [] => none
  | c :: rest =>
    if leadsWith (c :: rest) ['u', 'r', 'l', '('] then
      match bgTry ((c :: rest).drop 4) with
      | some content => some content
      | none => bgSearch rest
    else bgSearch rest

/-- A match record as the source stores it (src line 119 etc.):
`(source page final URL, match-kind label, context string)`. -/
abbrev MatchRecord : Type := String × String × String

/-- A status-feed entry `(tag, message)`. -/
abbrev Status : Type := String × String

/-- One HTML element, as seen through the attribute and text accessors the
source uses on it. -/
structure Element where
  name : String
  href : String
  text : String
  content : String
  alt : String
  style : String
  deriving DecidableEq

/-- A parsed document: the results of the three BeautifulSoup queries the
source performs (src lines 105-108 and 160). -/
structure Document where
  elements : List Element
  metaDescription : Option Element
  anchors : List Element
  deriving DecidableEq

/-- A successful fetch: final (post-redirect) URL, declared content type,
and the parsed document. -/
structure FetchOk where
  finalURL : String
  contentType : String
  doc : Document
  deriving DecidableEq

/-- Outcome of `session.get` plus `raise_for_status` (src lines 80-82). -/
inductive FetchRes where
  | failure (msg : String)
  | success (ok : FetchOk)
  deriving DecidableEq

/-- The external capabilities of the source: the web (HTTP GET with
redirects), `urllib.parse.urljoin`, and `urlparse(...).netloc`. -/
structure Env where
  web : String → FetchRes
  urljoin : String → String → String
  netloc : String → String

/-- Result of `process_url`: the returned link list and document, the
updated `visited`, `results` and `status_messages` collections, and the
list of URLs for which an HTTP GET was actually performed. -/
structure ProcOut where
  links : List (String × Nat)
  soup : Option Document
  visited : List String
  results : List MatchRecord
  status : List Status
  fetched : List String
  deriving DecidableEq

/-- The href checks of the per-element scan (src lines 115-124): raw and
resolved href, in source order. -/
def hrefChecks (env : Env) (final_url : String) (e : Element) :
    List MatchRecord × List Status :=
  if e.href ≠ "" then
    let resolved_url := env.urljoin final_url e.href
    let p1 := if contains_keyword resolved_url keywords then
        ([(final_url, "Keyword in Resolved URL", resolved_url)],
         [("🔗", "Match in resolved URL: " ++ resolved_url)])
      else ([], [])
    let p2 := if contains_keyword e.href keywords then
        ([(final_url, "Keyword in URL", e.href)],
         [("🔗", "Match in URL: " ++ e.href)])
      else ([], [])
    (p1.1 ++ p2.1, p1.2 ++ p2.2)
  else ([], [])

/-- The visible-text check of the per-element scan (src lines 127-131). -/
def textCheck (final_url : String) (e : Element) :
    List MatchRecord × List Status :=
  if e.text ≠ "" ∧ contains_keyword e.text keywords = true then
    let context := if 200 < e.text.length then String.mk (e.text.data.take 200) ++ "..." else e.text
    ([(final_url, "Keyword in content", context)],
     [("📄", "Match in content: " ++ context)])
  else ([], [])

/-- The meta-content check of the per-element scan (src lines 134-138). -/
def metaCheck (final_url : String) (e : Element) :
    List MatchRecord × List Status :=
  if e.content ≠ "" ∧ contains_keyword e.content keywords = true then
    let context := if 200 < e.content.length then String.mk (e.content.data.take 200) ++ "..." else e.content
    ([(final_url, "Keyword in meta content", context)],
     [("📄", "Match in meta content: " ++ context)])
  else ([], [])

/-- The image-alt check of the per-element scan (src lines 141-145). -/
def altCheck (final_url : String) (e : Element) :
    List MatchRecord × List Status :=
  if e.name = "img" ∧ contains_keyword e.alt keywords = true then
    ([(final_url, "Keyword in image alt", e.alt)],
     [("🖼️", "Match in image alt: " ++ e.alt)])
  else ([], [])

/-- The CSS background-image check of the per-element scan
(src lines 148-156). -/
def bgCheck (env : Env) (final_url : String) (e : Element) :
    List MatchRecord × List Status :=
  if hasSubStr "background-image" e.style then
    match bgSearch e.style.data with
    | some bg =>
      let resolved_bg := env.urljoin final_url (String.mk bg)
      if contains_keyword resolved_bg keywords then
        ([(final_url, "Keyword in background image", resolved_bg)],
         [("🎨", "Match in background image: " ++ resolved_bg)])
      else ([], [])
    | none => ([], [])
  else ([], [])

/-- The per-element match scan of `process_url` (src lines 110-156), as the
pair of match records and status entries the element contributes, in the
order the source appends them. -/
def checkElement (env : Env) (final_url : String) (e : Element) :
    List MatchRecord × List Status :=
  let hrefPart := hrefChecks env final_url e
  let textPart := textCheck final_url e
  let metaPart := metaCheck final_url e
  let altPart := altCheck final_url e
  let bgPart := bgCheck env final_url e
  (hrefPart.1 ++ textPart.1 ++ metaPart.1 ++ altPart.1 ++ bgPart.1,
   hrefPart.2 ++ textPart.2 ++ metaPart.2 ++ altPart.2 ++ bgPart.2)

/-- One step of the link-extraction loop of `process_url`
(src lines 160-170). -/
def linkStep (env : Env) (final_url main_domain : String) (depth : Nat)
    (visited : List String) (acc : List (String × Nat)) (link : Element) :
    List (String × Nat) :=
  let absolute_url := env.urljoin final_url link.href
  let is_external_link := ¬ (is_subdomain_of (env.netloc absolute_url) main_domain = true)
  let new_depth := if is_external_link then depth + 1 else depth
  if new_depth ≤ 2 ∧ absolute_url ∉ visited then acc ++ [(absolute_url, new_depth)]
  else acc

/-- The link extraction of `process_url` (src lines 158-171). -/
def extract_links (env : Env) (final_url main_domain : String) (depth : Nat)
    (visited : List String) (anchors : List Element) : List (String × Nat) :=
  anchors.foldl (linkStep env final_url main_domain depth visited) []

/-- The function `process_url` (src lines 73-172).  The `fetched` field records each URL
for which an HTTP GET was performed. -/
def process_url (env : Env) (url main_domain : String) (visited : List String)
    (results : List MatchRecord) (status : List Status) (depth : Nat) : ProcOut :=
  if url ∈ visited then ⟨[], none, visited, results, status, []⟩
  else
    let visited := visited ++ [url]
    match env.web url with
    | .failure e =>
      ⟨[], none, visited, results,
       status ++ [("❌", "Error fetching " ++ url ++ ": " ++ e)], [url]⟩
    | .success ok =>
      let status := status ++ [("✅", "Crawled: " ++ url)]
      if ¬ (hasSubStr "text/html" ok.contentType = true) then
        ⟨[], none, visited, results, status, [url]⟩
      else
        let final_url := ok.finalURL
        let is_external := ¬ (is_subdomain_of (env.netloc final_url) main_domain = true)
        if is_external ∧ 1 < depth then
          ⟨[], none, visited, results,
           status ++ [("🌐", "Skipping external URL at depth " ++ toString depth ++ ": " ++ final_url)],
           [url]⟩
        else
          let elems := ok.doc.elements ++
            (match ok.doc.metaDescription with | some m => [m] | none => [])
          let scanned := elems.foldl
            (fun (acc : List MatchRecord × List Status) e =>
              let c := checkElement env final_url e
              (acc.1 ++ c.1, acc.2 ++ c.2))
            (results, status)
          let extracted_links := extract_links env final_url main_domain depth visited ok.doc.anchors
          ⟨extracted_links, some ok.doc, visited, scanned.1, scanned.2, [url]⟩

/-- The fixed canonical category names (src line 36). -/
def category_names : List String :=
  ["travel", "blog", "resources"]

/-- The regex capture `re.search(r".category.([^/]+)", href).group(1)`
modelled literally for the source pattern `/category/([^/]+)`: find the
first position where `/category/` is followed by at least one non-slash
character and capture that run. -/
def categoryCapture : List Char → Option (List Char)
  | [] => none
  | c :: rest =>
    if leadsWith (c :: rest) "/category/".data then
      let captured := ((c :: rest).drop 10).takeWhile (fun ch => ¬ ch = '/')
      if captured ≠ [] then some captured else categoryCapture rest
    else categoryCapture rest

/-- The Python `set.add` of `extract_categories`, modelled as an
insertion-ordered deduplicating append (the source iterates a `set`, whose
order is unspecified; the spec sanctions imposing first-seen order). -/
def catAdd (s : List (String × String)) (p : String × String) : List (String × String) :=
  if p ∈ s then s else s ++ [p]

/-- The function `extract_categories` (src lines 34-68). -/
def extract_categories (env : Env) (soup : Document) (base_url : String) :
    List (String × String) :=
  let scan := soup.anchors.foldl
    (fun (acc : List (String × String) × List (String × String)) link =>
      let href := String.mk (pyLower (pyStrip link.href.data))
      let text := String.mk (pyLower (pyStrip link.text.data))
      if href = "" ∨ (["javascript:", "#", "mailto:", "tel:"].any fun p => leadsWith href.data p.data) = true then
        acc
      else
        let withCanon := category_names.foldl
          (fun (cs : List (String × String)) category =>
            if (hasSubStr category href ∨ hasSubStr category text) ∧ hasSubStr "/category/" href = true then
              cs ++ [(category, env.urljoin base_url href)]
            else cs)
          acc.1
        let withOther :=
          if hasSubStr "/category/" href ∧ (category_names.all fun cat => ¬ (hasSubStr cat href = true)) = true then
            match categoryCapture href.data with
            | some nm => catAdd acc.2 (String.mk (pyLower nm), env.urljoin base_url href)
            | none => acc.2
          else acc.2
        (withCanon, withOther))
    ([], [])
  let canon := category_names.foldl
    (fun (r : List (String × String)) cat_name =>
      match (scan.1.filter (fun p => p.1 = cat_name)).head? with
      | some p => r ++ [(cat_name, p.2)]
      | none => r)
    []
  canon ++ scan.2

/-- The `st.session_state.crawl_data` dictionary (src lines 177-190),
without the UI-only `start_time` field. -/
structure CrawlData where
  running : Bool
  queue : List (String × Nat)
  visited : List String
  results : List MatchRecord
  status : List Status
  main_domain : String
  categories : List (String × String)
  current_category : Option (String × String)
  pages_crawled : Nat
  max_pages : Nat
  deriving DecidableEq

/-- Session initialization on start (src lines 224-242): normalize the
seed by prefixing a default scheme if missing, seed the frontier at depth
0, clear all collections. -/
def startCrawl (env : Env) (url_input : String) : CrawlData :=
  let s := String.mk (pyStrip url_input.data)
  let initial_url :=
    if (leadsWith s.data "http://".data || leadsWith s.data "https://".data) = true then s
    else "https://" ++ s
  { running := true
    queue := [(initial_url, 0)]
    visited := []
    results := []
    status := [("🚀", "Starting crawl of " ++ initial_url)]
    main_domain := env.netloc initial_url
    categories := []
    current_category := none
    pages_crawled := 0
    max_pages := 8 }

/-- Processing of one dequeued entry inside the main-domain loop
(src lines 260-286): run `process_url`, bump the page counter, run
category extraction when this was the very first page and it produced a
document, then enqueue the new links not yet visited. -/
def mainProcessEntry (env : Env) (d : CrawlData) (url : String) (depth : Nat)
    (qrest : List (String × Nat)) : CrawlData :=
  let p := process_url env url d.main_domain d.visited d.results d.status depth
  let d := { d with queue := qrest, visited := p.visited, results := p.results,
                    status := p.status, pages_crawled := d.pages_crawled + 1 }
  let d :=
    if d.pages_crawled = 1 ∧ p.soup.isSome = true then
      match p.soup with
      | some soup =>
        let homepage_categories := extract_categories env soup url
        let d := { d with categories := homepage_categories }
        if homepage_categories ≠ [] then
          { d with status := d.status ++
              [("🗂️", "Found categories: " ++ String.intercalate ", " (homepage_categories.map Prod.fst))] }
        else d
      | none => d
    else d
  { d with queue := d.queue ++ (p.links.filter (fun l => l.1 ∉ d.visited)) }

/-- The phase-end fallback of the main-domain loop (src lines 299-312),
reached only when the page counter has hit the budget. -/
def mainFallback (d : CrawlData) : CrawlData :=
  let d := { d with status := d.status ++
      [("🛑", "Reached max pages limit (" ++ toString d.max_pages ++ ") for main domain.")] }
  if d.results = [] ∧ d.categories ≠ [] then
    let first_category := d.categories.headD ("", "")
    { d with
      current_category := some first_category
      status := d.status ++
        [("🔄", "No matches found in main domain. Moving to " ++ first_category.1 ++ " category.")]
      queue := [(first_category.2, 0)]
      pages_crawled := 0 }
  else if d.results = [] ∧ d.categories = [] then
    { d with
      status := d.status ++
        [("ℹ️", "No categories found. Crawl completed with no matches.")]
      running := false }
  else d

/-- The main-domain `while` loop (src lines 251-312).  The fuel bounds the
number of iterations (the source loop is not structurally bounded: the
fallback resets the page counter); every theorem below holds for every
fuel.  Besides the state, the loop returns the dequeue log: each dequeued
URL paired with the match-record list at the moment it was dequeued. -/
def mainLoop (env : Env) : Nat → CrawlData → CrawlData × List (String × List MatchRecord)
  | 0, d => (d, [])
  | fuel + 1, d =>
    if d.running = true ∧ d.pages_crawled < d.max_pages then
      match d.queue with
      | [] =>
        ({ d with status := d.status ++
            [("ℹ️", "No more pages to crawl in main domain after " ++ toString d.pages_crawled ++ " pages.")] },
         [])
      | (url, depth) :: qrest =>
        let d1 := mainProcessEntry env d url depth qrest
        if d1.results ≠ [] then
          ({ d1 with
             status := d1.status ++
               [("🎯", "Found " ++ toString d1.results.length ++ " matches! Pausing for review.")]
             running := false },
           [(url, d.results)])
        else
          let d2 := if d1.max_pages ≤ d1.pages_crawled then mainFallback d1 else d1
          let r := mainLoop env fuel d2
          (r.1, (url, d.results) :: r.2)
    else (d, [])

/-- Python `next((i for i, cat in enumerate(categories) if cat[0] == category_name), -1)`
(src line 361). -/
def firstNameIdxAux (name : String) : Int → List (String × String) → Int
  | _, [] => -1
  | i, c :: cs => if c.1 = name then i else firstNameIdxAux name (i + 1) cs

/-- Index of the first category whose name matches, `-1` if none. -/
def firstNameIdx (cats : List (String × String)) (name : String) : Int :=
  firstNameIdxAux name 0 cats

/-- The phase-end fallback of the category loop (src lines 358-373): find
the current index by the (tick-initial) category name, move to the
following category or finish. -/
def catFallback (category_name : String) (d : CrawlData) : CrawlData :=
  let d := { d with status := d.status ++
      [("🛑", "Reached max pages limit (" ++ toString d.max_pages ++ ") for " ++ category_name ++ " category.")] }
  let current_idx : Int := firstNameIdx d.categories category_name
  if current_idx < (d.categories.length : Int) - 1 then
    let next_category := d.categories.getD (current_idx + 1).toNat ("", "")
    { d with
      current_category := some next_category
      status := d.status ++
        [("🔄", "No matches found. Moving to " ++ next_category.1 ++ " category.")]
      queue := [(next_category.2, 0)]
      pages_crawled := 0 }
  else
    { d with
      status := d.status ++
        [("ℹ️", "No more categories to crawl. Crawl completed with no matches.")]
      running := false }

/-- Processing of one dequeued entry inside the category loop
(src lines 330-345): like the main loop but with no category
extraction. -/
def catProcessEntry (env : Env) (d : CrawlData) (url : String) (depth : Nat)
    (qrest : List (String × Nat)) : CrawlData :=
  let p := process_url env url d.main_domain d.visited d.results d.status depth
  let d := { d with queue := qrest, visited := p.visited, results := p.results,
                    status := p.status, pages_crawled := d.pages_crawled + 1 }
  { d with queue := d.queue ++ (p.links.filter (fun l => l.1 ∉ d.visited)) }

/-- The category `while` loop (src lines 321-373).  `category_name` is the
name read from `current_category` once, at the start of the tick (src line
315); it is not refreshed when the fallback moves to the next category
within the same tick, exactly as in the source. -/
def catLoop (env : Env) (category_name : String) :
    Nat → CrawlData → CrawlData × List (String × List MatchRecord)
  | 0, d => (d, [])
  | fuel + 1, d =>
    if d.running = true ∧ d.pages_crawled < d.max_pages then
      match d.queue with
      | [] =>
        ({ d with status := d.status ++
            [("ℹ️", "No more pages to crawl in " ++ category_name ++ " category after " ++ toString d.pages_crawled ++ " pages.")] },
         [])
      | (url, depth) :: qrest =>
        let d1 := catProcessEntry env d url depth qrest
        if d1.results ≠ [] then
          ({ d1 with
             status := d1.status ++
               [("🎯", "Found " ++ toString d1.results.length ++ " matches in " ++ category_name ++ " category! Pausing for review.")]
             running := false },
           [(url, d.results)])
        else
          let d2 := if d1.max_pages ≤ d1.pages_crawled then catFallback category_name d1 else d1
          let r := catLoop env category_name fuel d2
          (r.1, (url, d.results) :: r.2)
    else (d, [])

/-- One Streamlit rerun of the crawling section (src lines 244-373): a
tick.  When not running, nothing happens; in the category branch the
frontier is re-seeded when the per-phase page counter is 0 (src lines
317-319). -/
def tick (env : Env) (fuel : Nat) (d : CrawlData) :
    CrawlData × List (String × List MatchRecord) :=
  if d.running = true then
    match d.current_category with
    | none => mainLoop env fuel d
    | some cat =>
      let d := if d.pages_crawled = 0 then
          { d with status := d.status ++ [("🔍", "Starting crawl of " ++ cat.1 ++ " category")],
                   queue := [(cat.2, 0)] }
        else d
      catLoop env cat.1 fuel d
  else (d, [])

/-- A parsed document with no elements at all. -/
def emptyDoc : Document :=
  { elements := [], metaDescription := none, anchors := [] }

/-- Scenario A site (claim C1): a single reachable page with no links, no
category links and no keyword occurrences. -/
def envA : Env :=
  { web := fun u =>
      if u = "https://a.com" then .success ⟨"https://a.com", "text/html", emptyDoc⟩
      else .failure "no route"
    urljoin := fun _ h => h
    netloc := fun _ => "a.com" }

/-- An anchor whose href is the keyword literal "87121". -/
def anchorB : Element :=
  { name := "a", href := "87121", text := "", content := "", alt := "", style := "" }

/-- Scenario B environment: the seed page carries `anchorB`, so the very
first processed page produces match records. -/
def envB : Env :=
  { web := fun u =>
      if u = "https://a.com" then
        .success ⟨"https://a.com", "text/html",
          { elements := [anchorB], metaDescription := none, anchors := [anchorB] }⟩
      else .failure "no route"
    urljoin := fun _ h => h
    netloc := fun _ => "a.com" }

/-- Environment for claim C3: the external URL answers an HTML page. -/
def env3 : Env :=
  { web := fun u => .success ⟨u, "text/html", emptyDoc⟩
    urljoin := fun _ h => h
    netloc := fun s => if s = "https://ext.com/p" then "ext.com" else "a.com" }

/-- A 201-character text beginning with a keyword (claim C7). -/
def longText : String :=
  "gowithguide" ++ String.mk (List.replicate 190 'a')

/-- An inert environment: every capability is trivial and never consulted
by the checks that use it. -/
def env7 : Env :=
  { web := fun _ => .failure "offline"
    urljoin := fun _ h => h
    netloc := fun _ => "" }

/-- A paragraph element whose visible text is `longText` (claim C7). -/
def elem7 : Element :=
  { name := "p", href := "", text := longText, content := "", alt := "", style := "" }

/-- An anchor with a category-path href (claims C8, C9). -/
def catAnchor (h : String) : Element :=
  { name := "a", href := h, text := "", content := "", alt := "", style := "" }

/-- Document of the second page of the C8 scenario: it carries a category
link. -/
def doc8 : Document :=
  { elements := [catAnchor "/category/n"]
    metaDescription := none
    anchors := [catAnchor "/category/n"] }

/-- Environment for claim C8: the first page fails to fetch, the second
succeeds with HTML that contains a category link. -/
def env8 : Env :=
  { web := fun u =>
      if u = "https://a.com/one" then .failure "boom"
      else if u = "https://a.com/two" then .success ⟨"https://a.com/two", "text/html", doc8⟩
      else .failure "no route"
    urljoin := fun _ h => if leadsWith h.data ['/'] then "https://a.com" ++ h else h
    netloc := fun _ => "a.com" }

/-- Session state for claim C8: a main-domain phase whose frontier holds
two pages, with nothing crawled yet. -/
def d8 : CrawlData :=
  { running := true
    queue := [("https://a.com/one", 0), ("https://a.com/two", 0)]
    visited := []
    results := []
    status := []
    main_domain := "a.com"
    categories := []
    current_category := none
    pages_crawled := 0
    max_pages := 8 }

/-- Document for claim C9: two anchors under the same category name `n`
with different URLs, so the extractor emits a repeated name. -/
def doc9 : Document :=
  { elements := []
    metaDescription := none
    anchors := [catAnchor "/category/n", catAnchor "/category/n/x"] }

/-- Environment for claim C9. -/
def env9 : Env :=
  { web := fun _ => .failure "offline"
    urljoin := fun b h => b ++ h
    netloc := fun _ => "e.c" }

/-- Session state for claim C9: the current category is the second (and
last) entry of the duplicated category list, its budget one page away from
exhaustion, and both frontier URLs already visited so the tick performs no
fetch. -/
def d9 : CrawlData :=
  { running := true
    queue := [("x", 0)]
    visited := ["x", "https://e.c/category/n/x"]
    results := []
    status := []
    main_domain := "e.c"
    categories := extract_categories env9 doc9 "https://e.c"
    current_category := some ("n", "https://e.c/category/n/x")
    pages_crawled := 7
    max_pages := 8 }

theorem leadsWith_iff (p : List Char) : ∀ (l : List Char), leadsWith l p = true ↔ p <+: l := by
  induction p with
  | nil => intro l; simp [leadsWith]
  | cons a as ih =>
    intro l
    cases l with
    | nil => simp [leadsWith]
    | cons b bs =>
      constructor
      · intro h
        simp only [leadsWith, Bool.and_eq_true, decide_eq_true_eq] at h
        exact List.cons_prefix_cons.mpr ⟨h.1.symm, (ih bs).mp h.2⟩
      · intro h
        obtain ⟨hab, hpre⟩ := List.cons_prefix_cons.mp h
        simp only [leadsWith, Bool.and_eq_true, decide_eq_true_eq]
        exact ⟨hab.symm, (ih bs).mpr hpre⟩

theorem endsWithL_iff (l p : List Char) : endsWithL l p = true ↔ p <:+ l := by
  rw [endsWithL, leadsWith_iff, List.reverse_prefix]

theorem truncLen (s : String) :
    (if 200 < s.length then String.mk (s.data.take 200) ++ "..." else s).length ≤ 203 := by
  split
  · rw [String.length_append]
    have h1 : (String.mk (s.data.take 200)).length = (s.data.take 200).length := rfl
    rw [h1, List.length_take]
    have h2 : ("..." : String).length = 3 := rfl
    omega
  · omega

/-- C10: for a URL already in the visited set, `process_url` returns an
empty link list and no document, performs no HTTP fetch, and leaves the
visited set, the match-record list and the status feed unchanged. -/
theorem C10_visited_noop (env : Env) (url main_domain : String)
    (visited : List String) (results : List MatchRecord) (status : List Status)
    (depth : Nat) (h : url ∈ visited) :
    process_url env url main_domain visited results status depth =
      ⟨[], none, visited, results, status, []⟩ := by
  rw [process_url, if_pos h]

/-- Witness for C10 at a concrete visited URL. -/
theorem C10_witness :
    process_url envA "u" "a.com" ["u"] [] [] 0 = ⟨[], none, ["u"], [], [], []⟩ :=
  C10_visited_noop envA "u" "a.com" ["u"] [] [] 0 (by decide)

/-- C5 (spec-modelled matcher): `contains_keyword` is false on empty text,
is true exactly when some keyword is a case-insensitive substring of the
(lower-cased, stripped) text or scores at least 85 on the partial-ratio
similarity, and decides the two example inputs as the spec states. -/
theorem C5_matcher :
    (∀ kws : List String, contains_keyword "" kws = false) ∧
    (∀ (text : String) (kws : List String),
      contains_keyword text kws = true ↔
        (text ≠ "" ∧
          ((∃ kw ∈ kws, hasSubL (pyStrip (pyLower text.data)) (pyLower kw.data) = true) ∨
           (∃ kw ∈ kws, 85 ≤ partialSim (pyStrip (pyLower text.data)) (pyLower kw.data))))) ∧
    contains_keyword "Visit Go With Guide today" ["gowithguide"] = true ∧
    contains_keyword "completely unrelated text" ["gowithguide"] = false := by
  refine ⟨fun kws => rfl, fun text kws => ?_, by decide, by decide⟩
  by_cases ht : text = ""
  · subst ht
    rw [show contains_keyword "" kws = false from rfl]
    exact ⟨fun h => absurd h Bool.false_ne_true, fun h => absurd rfl h.1⟩
  · simp only [contains_keyword]
    rw [if_neg ht]
    simp only [Bool.or_eq_true, List.any_eq_true, decide_eq_true_eq, ne_eq, ht,
      not_false_eq_true, true_and]

/-- Witness for C5: the approximate-match example, via the iff. -/
theorem C5_witness :
    ("Visit Go With Guide today" : String) ≠ "" ∧
      ((∃ kw ∈ ["gowithguide"],
          hasSubL (pyStrip (pyLower "Visit Go With Guide today".data)) (pyLower kw.data) = true) ∨
       (∃ kw ∈ ["gowithguide"],
          85 ≤ partialSim (pyStrip (pyLower "Visit Go With Guide today".data)) (pyLower kw.data))) :=
  (C5_matcher.2.1 "Visit Go With Guide today" ["gowithguide"]).mp (by decide)

/-- C6 counterexample: the source normalization removes every occurrence
of "www.", not only a leading one, so the spec reading and the source
disagree on the host "xwww.foo.com" against main host "foo.com". -/
theorem C6_counterexample :
    is_subdomain_of "xwww.foo.com" "foo.com" = false ∧
    specIsSameSite "xwww.foo.com" "foo.com" = true := by
  decide

/-- C6 (amended): the classifier normalizes both hosts by removing every
occurrence of the substring "www." (case-sensitively, before
lower-casing) and lower-casing, and returns true iff the normalized hosts
are equal or the normalized host ends with "." followed by the normalized
main host; the three example inputs behave as the spec states. -/
theorem C6_amended :
    (∀ a m : String, is_subdomain_of a m = true ↔
      (normHost a = normHost m ∨ ('.' :: normHost m) <:+ normHost a)) ∧
    is_subdomain_of "www.Example.com" "example.com" = true ∧
    is_subdomain_of "sub.example.com" "example.com" = true ∧
    is_subdomain_of "example.org" "example.com" = false := by
  refine ⟨fun a m => ?_, by decide, by decide, by decide⟩
  simp only [is_subdomain_of, Bool.or_eq_true, beq_iff_eq, endsWithL_iff]
  tauto

/-- Witness for C6 via the iff at a concrete subdomain. -/
theorem C6_witness :
    normHost "sub.example.com" = normHost "example.com" ∨
      ('.' :: normHost "example.com") <:+ normHost "sub.example.com" :=
  (C6_amended.1 "sub.example.com" "example.com").mp (by decide)

/-- C3 counterexample: an external URL dequeued at depth 2 IS fetched — the
HTTP GET happens before the external/depth test, which only suppresses
extraction and matching afterwards.  The claim says no GET is ever
performed for such entries. -/
theorem C3_counterexample :
    (process_url env3 "https://ext.com/p" "a.com" [] [] [] 2).fetched = ["https://ext.com/p"] ∧
    (process_url env3 "https://ext.com/p" "a.com" [] [] [] 2).links = [] ∧
    (process_url env3 "https://ext.com/p" "a.com" [] [] [] 2).soup = none ∧
    (process_url env3 "https://ext.com/p" "a.com" [] [] [] 2).results = [] := by
  decide

/-- C3 (amended): for a dequeued entry not yet visited whose fetch succeeds
with HTML and whose final URL is external to the main site at depth
greater than 1, the controller performs the HTTP GET, marks the URL
visited, logs the crawl and the skip, and only then discards the entry:
no links, no document, results unchanged. -/
theorem C3_amended (env : Env) (url main_domain : String) (visited : List String)
    (results : List MatchRecord) (status : List Status) (depth : Nat) (ok : FetchOk)
    (hv : url ∉ visited) (hw : env.web url = .success ok)
    (hct : hasSubStr "text/html" ok.contentType = true)
    (hext : is_subdomain_of (env.netloc ok.finalURL) main_domain = false)
    (hd : 1 < depth) :
    process_url env url main_domain visited results status depth =
      ⟨[], none, visited ++ [url], results,
       status ++ [("✅", "Crawled: " ++ url)] ++
         [("🌐", "Skipping external URL at depth " ++ toString depth ++ ": " ++ ok.finalURL)],
       [url]⟩ := by
  rw [process_url, if_neg hv, hw]
  show (if ¬ (hasSubStr "text/html" ok.contentType = true) then _ else _) = _
  rw [if_neg (by rw [hct]; exact fun h => h rfl)]
  show (if (¬ (is_subdomain_of (env.netloc ok.finalURL) main_domain = true)) ∧ 1 < depth
      then _ else _) = _
  rw [if_pos ⟨by rw [hext]; exact Bool.false_ne_true, hd⟩]

/-- Witness for C3 at the concrete external depth-2 entry. -/
theorem C3_witness :
    process_url env3 "https://ext.com/p" "a.com" [] [] [] 2 =
      ⟨[], none, [] ++ ["https://ext.com/p"], [],
       [] ++ [("✅", "Crawled: " ++ "https://ext.com/p")] ++
         [("🌐", "Skipping external URL at depth " ++ toString 2 ++ ": " ++ "https://ext.com/p")],
       ["https://ext.com/p"]⟩ :=
  C3_amended env3 "https://ext.com/p" "a.com" [] [] [] 2
    ⟨"https://ext.com/p", "text/html", emptyDoc⟩
    (by decide) (by decide) (by decide) (by decide) (by decide)

/-- C7 counterexample: a paragraph whose visible text is 201 characters
long and contains a keyword yields a Content match record whose stored
context has 203 characters (a 200-character prefix plus "..."), exceeding
the 200-character bound the claim states for every record. -/
theorem C7_counterexample :
    ((checkElement env7 "https://a.com/p" elem7).1.map (fun r => (r.2.1, r.2.2.length)) =
      [("Keyword in content", 203)]) ∧ ¬ (203 ≤ 200) := by
  decide

/-- C7 (amended): every match record of kind Content or MetaContent
produced by the per-element scan carries a context of at most 203
characters (a 200-character prefix plus the three-character ellipsis);
records of the other kinds store the full matched string, with no bound. -/
theorem hrefChecks_label (env : Env) (final_url : String) (e : Element) :
    ∀ r ∈ (hrefChecks env final_url e).1,
      r.2.1 = "Keyword in Resolved URL" ∨ r.2.1 = "Keyword in URL" := by
  intro r hr
  rw [hrefChecks] at hr
  split at hr
  · rcases List.mem_append.mp hr with h | h <;> split at h <;>
      simp only [List.mem_singleton, List.not_mem_nil] at h
    · subst h; exact Or.inl rfl
    · subst h; exact Or.inr rfl
  · simp only [List.not_mem_nil] at hr

theorem textCheck_shape (final_url : String) (e : Element) :
    ∀ r ∈ (textCheck final_url e).1,
      r.2.1 = "Keyword in content" ∧ r.2.2.length ≤ 203 := by
  intro r hr
  rw [textCheck] at hr
  split at hr
  · simp only [List.mem_singleton] at hr
    subst hr
    exact ⟨rfl, truncLen e.text⟩
  · simp only [List.not_mem_nil] at hr

theorem metaCheck_shape (final_url : String) (e : Element) :
    ∀ r ∈ (metaCheck final_url e).1,
      r.2.1 = "Keyword in meta content" ∧ r.2.2.length ≤ 203 := by
  intro r hr
  rw [metaCheck] at hr
  split at hr
  · simp only [List.mem_singleton] at hr
    subst hr
    exact ⟨rfl, truncLen e.content⟩
  · simp only [List.not_mem_nil] at hr

theorem altCheck_label (final_url : String) (e : Element) :
    ∀ r ∈ (altCheck final_url e).1, r.2.1 = "Keyword in image alt" := by
  intro r hr
  rw [altCheck] at hr
  split at hr
  · simp only [List.mem_singleton] at hr
    subst hr
    rfl
  · simp only [List.not_mem_nil] at hr

theorem bgCheck_label (env : Env) (final_url : String) (e : Element) :
    ∀ r ∈ (bgCheck env final_url e).1, r.2.1 = "Keyword in background image" := by
  intro r hr
  rw [bgCheck] at hr
  split at hr
  · split at hr
    · dsimp only at hr
      split at hr
      · simp only [List.mem_singleton] at hr
        subst hr
        rfl
      · simp only [List.not_mem_nil] at hr
    · simp only [List.not_mem_nil] at hr
  · simp only [List.not_mem_nil] at hr

/-- C7 (amended): every match record of kind Content or MetaContent
produced by the per-element scan carries a context of at most 203
characters (a 200-character prefix plus the three-character ellipsis);
records of the other kinds store the full matched string, with no bound. -/
theorem C7_amended (env : Env) (final_url : String) (e : Element) :
    ∀ r ∈ (checkElement env final_url e).1,
      (r.2.1 = "Keyword in content" ∨ r.2.1 = "Keyword in meta content") →
        r.2.2.length ≤ 203 := by
  intro r hr hkind
  rw [checkElement] at hr
  rcases List.mem_append.mp hr with hr4 | hbg
  rcases List.mem_append.mp hr4 with hr3 | halt
  rcases List.mem_append.mp hr3 with hr2 | hmeta
  rcases List.mem_append.mp hr2 with hhref | htext
  · exfalso
    rcases hrefChecks_label env final_url e r hhref with h | h <;>
      rcases hkind with hk | hk <;> rw [h] at hk <;> exact absurd hk (by decide)
  · exact (textCheck_shape final_url e r htext).2
  · exact (metaCheck_shape final_url e r hmeta).2
  · exfalso
    have h := altCheck_label final_url e r halt
    rcases hkind with hk | hk <;> rw [h] at hk <;> exact absurd hk (by decide)
  · exfalso
    have h := bgCheck_label env final_url e r hbg
    rcases hkind with hk | hk <;> rw [h] at hk <;> exact absurd hk (by decide)

/-- Witness for C7: the bound applied to the concrete Content record of
the long-text element. -/
theorem C7_witness :
    ("https://a.com/p", "Keyword in content",
        String.mk (longText.data.take 200) ++ "...").2.2.length ≤ 203 :=
  C7_amended env7 "https://a.com/p" elem7
    ("https://a.com/p", "Keyword in content", String.mk (longText.data.take 200) ++ "...")
    (by decide) (Or.inl rfl)

theorem mainFallback_results (d : CrawlData) : (mainFallback d).results = d.results := by
  simp only [mainFallback]
  split_ifs <;> rfl

theorem mainFallback_categories (d : CrawlData) : (mainFallback d).categories = d.categories := by
  simp only [mainFallback]
  split_ifs <;> rfl

theorem mainFallback_pages_nocats (d : CrawlData) (h : d.categories = []) :
    (mainFallback d).pages_crawled = d.pages_crawled := by
  simp only [mainFallback]
  split_ifs with h1 h2
  · exact absurd h h1.2
  · rfl
  · rfl

theorem catFallback_results (name : String) (d : CrawlData) :
    (catFallback name d).results = d.results := by
  simp only [catFallback]
  split_ifs <;> rfl

theorem catFallback_categories (name : String) (d : CrawlData) :
    (catFallback name d).categories = d.categories := by
  simp only [catFallback]
  split_ifs <;> rfl

theorem mainLoop_pause (env : Env) :
    ∀ (fuel : Nat) (d : CrawlData), d.results = [] →
      (((mainLoop env fuel d).1.results ≠ [] → (mainLoop env fuel d).1.running = false) ∧
       (∀ p ∈ (mainLoop env fuel d).2, p.2 = [])) := by
  intro fuel
  induction fuel with
  | zero =>
    intro d h
    exact ⟨fun hr => absurd h hr, fun p hp => absurd hp (List.not_mem_nil p)⟩
  | succ n ih =>
    intro d h
    rw [mainLoop]
    by_cases hrun : d.running = true ∧ d.pages_crawled < d.max_pages
    · rw [if_pos hrun]
      rcases hq : d.queue with - | ⟨⟨url, depth⟩, qrest⟩
      · exact ⟨fun hr => absurd h hr, fun p hp => absurd hp (List.not_mem_nil p)⟩
      · dsimp only
        split
        · refine ⟨fun _ => rfl, ?_⟩
          intro p hp
          rw [List.mem_singleton] at hp
          subst hp
          exact h
        · next hno =>
          dsimp only
          have h2 : (if (mainProcessEntry env d url depth qrest).max_pages ≤
                (mainProcessEntry env d url depth qrest).pages_crawled then
                mainFallback (mainProcessEntry env d url depth qrest)
              else mainProcessEntry env d url depth qrest).results = [] := by
            split
            · rw [mainFallback_results]
              exact not_ne_iff.mp hno
            · exact not_ne_iff.mp hno
          obtain ⟨ih1, ih2⟩ := ih _ h2
          refine ⟨ih1, ?_⟩
          intro p hp
          rcases List.mem_cons.mp hp with hp | hp
          · subst hp
            exact h
          · exact ih2 p hp
    · rw [if_neg hrun]
      exact ⟨fun hr => absurd h hr, fun p hp => absurd hp (List.not_mem_nil p)⟩

theorem catLoop_pause (env : Env) (category_name : String) :
    ∀ (fuel : Nat) (d : CrawlData), d.results = [] →
      (((catLoop env category_name fuel d).1.results ≠ [] →
          (catLoop env category_name fuel d).1.running = false) ∧
       (∀ p ∈ (catLoop env category_name fuel d).2, p.2 = [])) := by
  intro fuel
  induction fuel with
  | zero =>
    intro d h
    exact ⟨fun hr => absurd h hr, fun p hp => absurd hp (List.not_mem_nil p)⟩
  | succ n ih =>
    intro d h
    rw [catLoop]
    by_cases hrun : d.running = true ∧ d.pages_crawled < d.max_pages
    · rw [if_pos hrun]
      rcases hq : d.queue with - | ⟨⟨url, depth⟩, qrest⟩
      · exact ⟨fun hr => absurd h hr, fun p hp => absurd hp (List.not_mem_nil p)⟩
      · dsimp only
        split
        · refine ⟨fun _ => rfl, ?_⟩
          intro p hp
          rw [List.mem_singleton] at hp
          subst hp
          exact h
        · next hno =>
          dsimp only
          have h2 : (if (catProcessEntry env d url depth qrest).max_pages ≤
                (catProcessEntry env d url depth qrest).pages_crawled then
                catFallback category_name (catProcessEntry env d url depth qrest)
              else catProcessEntry env d url depth qrest).results = [] := by
            split
            · rw [catFallback_results]
              exact not_ne_iff.mp hno
            · exact not_ne_iff.mp hno
          obtain ⟨ih1, ih2⟩ := ih _ h2
          refine ⟨ih1, ?_⟩
          intro p hp
          rcases List.mem_cons.mp hp with hp | hp
          · subst hp
            exact h
          · exact ih2 p hp
    · rw [if_neg hrun]
      exact ⟨fun hr => absurd h hr, fun p hp => absurd hp (List.not_mem_nil p)⟩

/-- C2: within one tick started with no match records, in either phase, as
soon as processing a dequeued entry makes the match-record list non-empty
the loop stops with the running flag set to false, and every frontier
entry that gets dequeued in the tick is dequeued while the match-record
list is still empty (none after the first match). -/
theorem C2_pause_on_first_match (env : Env) (fuel : Nat) (d : CrawlData)
    (h : d.results = []) :
    ((tick env fuel d).1.results ≠ [] → (tick env fuel d).1.running = false) ∧
    (∀ p ∈ (tick env fuel d).2, p.2 = []) := by
  rw [tick]
  split
  · split
    · exact mainLoop_pause env fuel d h
    · dsimp only
      split
      · exact catLoop_pause env _ fuel _ h
      · exact catLoop_pause env _ fuel d h
  · exact ⟨fun hr => absurd h hr, fun p hp => absurd hp (List.not_mem_nil p)⟩

/-- Witness for C2: in the Scenario B crawl the first page matches and the
tick ends paused. -/
theorem C2_witness :
    (tick envB 5 (startCrawl envB "https://a.com")).1.running = false :=
  (C2_pause_on_first_match envB 5 (startCrawl envB "https://a.com") rfl).1 (by decide)

theorem linkStep_depth (env : Env) (fu md : String) (depth : Nat) (visited : List String)
    (acc : List (String × Nat)) (link : Element)
    (h : ∀ l ∈ acc, l.2 ≤ 2) :
    ∀ l ∈ linkStep env fu md depth visited acc link, l.2 ≤ 2 := by
  intro l hl
  simp only [linkStep] at hl
  split at hl <;> split at hl <;> try exact h l hl
  all_goals
    rename_i hc
    rcases List.mem_append.mp hl with h1 | h2
    · exact h l h1
    · rw [List.mem_singleton] at h2
      subst h2
      exact hc.1

theorem extract_links_depth (env : Env) (fu md : String) (depth : Nat)
    (visited : List String) (anchors : List Element) :
    ∀ l ∈ extract_links env fu md depth visited anchors, l.2 ≤ 2 := by
  rw [extract_links]
  suffices hs : ∀ (ls : List Element) (acc : List (String × Nat)), (∀ l ∈ acc, l.2 ≤ 2) →
      ∀ l ∈ ls.foldl (linkStep env fu md depth visited) acc, l.2 ≤ 2 by
    exact hs anchors [] (fun l hl => absurd hl (List.not_mem_nil l))
  intro ls
  induction ls with
  | nil =>
    intro acc hacc
    simpa using hacc
  | cons a as ih =>
    intro acc hacc
    rw [List.foldl_cons]
    exact ih _ (linkStep_depth env fu md depth visited acc a hacc)

theorem process_url_links_depth (env : Env) (url md : String) (visited : List String)
    (results : List MatchRecord) (status : List Status) (depth : Nat) :
    ∀ l ∈ (process_url env url md visited results status depth).links, l.2 ≤ 2 := by
  intro l hl
  rw [process_url] at hl
  split at hl
  · exact absurd hl (List.not_mem_nil l)
  · split at hl
    · exact absurd hl (List.not_mem_nil l)
    · dsimp only at hl
      split at hl
      · exact absurd hl (List.not_mem_nil l)
      · split at hl
        · exact absurd hl (List.not_mem_nil l)
        · exact extract_links_depth env _ md depth _ _ l hl

theorem mainProcessEntry_queue (env : Env) (d : CrawlData) (url : String) (depth : Nat)
    (qrest : List (String × Nat)) :
    (mainProcessEntry env d url depth qrest).queue =
      qrest ++ ((process_url env url d.main_domain d.visited d.results d.status depth).links.filter
        (fun l => l.1 ∉ (process_url env url d.main_domain d.visited d.results d.status depth).visited)) := by
  simp only [mainProcessEntry]
  split
  · split
    · split <;> rfl
    · rfl
  · rfl

theorem mainProcessEntry_results (env : Env) (d : CrawlData) (url : String) (depth : Nat)
    (qrest : List (String × Nat)) :
    (mainProcessEntry env d url depth qrest).results =
      (process_url env url d.main_domain d.visited d.results d.status depth).results := by
  simp only [mainProcessEntry]
  split
  · split
    · split <;> rfl
    · rfl
  · rfl

theorem mainProcessEntry_pages (env : Env) (d : CrawlData) (url : String) (depth : Nat)
    (qrest : List (String × Nat)) :
    (mainProcessEntry env d url depth qrest).pages_crawled = d.pages_crawled + 1 := by
  simp only [mainProcessEntry]
  split
  · split
    · split <;> rfl
    · rfl
  · rfl

theorem mainProcessEntry_max (env : Env) (d : CrawlData) (url : String) (depth : Nat)
    (qrest : List (String × Nat)) :
    (mainProcessEntry env d url depth qrest).max_pages = d.max_pages := by
  simp only [mainProcessEntry]
  split
  · split
    · split <;> rfl
    · rfl
  · rfl

theorem mainProcessEntry_categories (env : Env) (d : CrawlData) (url : String) (depth : Nat)
    (qrest : List (String × Nat)) (h : 1 ≤ d.pages_crawled) :
    (mainProcessEntry env d url depth qrest).categories = d.categories := by
  simp only [mainProcessEntry]
  have hcond : ¬ (d.pages_crawled + 1 = 1 ∧
      (process_url env url d.main_domain d.visited d.results d.status depth).soup.isSome = true) := by
    rintro ⟨h1, -⟩
    omega
  rw [if_neg hcond]

theorem mainFallback_queue (d : CrawlData) (h : ∀ e ∈ d.queue, e.2 ≤ 2) :
    ∀ e ∈ (mainFallback d).queue, e.2 ≤ 2 := by
  simp only [mainFallback]
  split_ifs
  · intro e he
    rw [List.mem_singleton] at he
    subst he
    exact Nat.zero_le 2
  · exact h
  · exact h

theorem catFallback_queue (name : String) (d : CrawlData) (h : ∀ e ∈ d.queue, e.2 ≤ 2) :
    ∀ e ∈ (catFallback name d).queue, e.2 ≤ 2 := by
  simp only [catFallback]
  split_ifs
  · intro e he
    rw [List.mem_singleton] at he
    subst he
    exact Nat.zero_le 2
  · exact h

theorem mainLoop_depth (env : Env) :
    ∀ (fuel : Nat) (d : CrawlData), (∀ e ∈ d.queue, e.2 ≤ 2) →
      ∀ e ∈ (mainLoop env fuel d).1.queue, e.2 ≤ 2 := by
  intro fuel
  induction fuel with
  | zero =>
    intro d h
    exact h
  | succ n ih =>
    intro d h
    rw [mainLoop]
    by_cases hrun : d.running = true ∧ d.pages_crawled < d.max_pages
    · rw [if_pos hrun]
      rcases hq : d.queue with - | ⟨⟨url, depth⟩, qrest⟩
      · intro e he
        exact absurd he (List.not_mem_nil e)
      · dsimp only
        rw [hq] at h
        have h1 : ∀ e ∈ (mainProcessEntry env d url depth qrest).queue, e.2 ≤ 2 := by
          rw [mainProcessEntry_queue]
          intro e he
          rcases List.mem_append.mp he with he1 | he2
          · exact h e (List.mem_cons_of_mem _ he1)
          · exact process_url_links_depth env url d.main_domain d.visited d.results d.status depth
              e (List.mem_filter.mp he2).1
        split
        · exact h1
        · dsimp only
          refine ih _ ?_
          split
          · exact mainFallback_queue _ h1
          · exact h1
    · rw [if_neg hrun]
      exact h

theorem catLoop_depth (env : Env) (category_name : String) :
    ∀ (fuel : Nat) (d : CrawlData), (∀ e ∈ d.queue, e.2 ≤ 2) →
      ∀ e ∈ (catLoop env category_name fuel d).1.queue, e.2 ≤ 2 := by
  intro fuel
  induction fuel with
  | zero =>
    intro d h
    exact h
  | succ n ih =>
    intro d h
    rw [catLoop]
    by_cases hrun : d.running = true ∧ d.pages_crawled < d.max_pages
    · rw [if_pos hrun]
      rcases hq : d.queue with - | ⟨⟨url, depth⟩, qrest⟩
      · intro e he
        exact absurd he (List.not_mem_nil e)
      · dsimp only
        rw [hq] at h
        have h1 : ∀ e ∈ (catProcessEntry env d url depth qrest).queue, e.2 ≤ 2 := by
          intro e he
          rcases List.mem_append.mp he with he1 | he2
          · exact h e (List.mem_cons_of_mem _ he1)
          · exact process_url_links_depth env url d.main_domain d.visited d.results d.status depth
              e (List.mem_filter.mp he2).1
        split
        · exact h1
        · dsimp only
          refine ih _ ?_
          split
          · exact catFallback_queue _ _ h1
          · exact h1
    · rw [if_neg hrun]
      exact h

/-- C4: every frontier entry of the session has depth at most 2 — the seed
is enqueued at depth 0 and, whenever every queued entry has depth at most
2, every entry queued after a tick (category seeds at depth 0 and
extractor links, which are filtered to computed depth at most 2) also has
depth at most 2. -/
theorem C4_depth_bound (env : Env) (s : String) (fuel : Nat) (d : CrawlData)
    (h : ∀ e ∈ d.queue, e.2 ≤ 2) :
    (∀ e ∈ (startCrawl env s).queue, e.2 ≤ 2) ∧
    (∀ e ∈ (tick env fuel d).1.queue, e.2 ≤ 2) := by
  constructor
  · intro e he
    rw [startCrawl] at he
    dsimp only at he
    rw [List.mem_singleton] at he
    subst he
    exact Nat.zero_le 2
  · rw [tick]
    split
    · split
      · exact mainLoop_depth env fuel d h
      · dsimp only
        split
        · refine catLoop_depth env _ fuel _ ?_
          intro e he
          rw [List.mem_singleton] at he
          subst he
          exact Nat.zero_le 2
        · exact catLoop_depth env _ fuel d h
    · exact h

/-- Witness for C4: the queued link of the Scenario B tick, with depth 0. -/
theorem C4_witness :
    ("87121", 0) ∈ (tick envB 5 (startCrawl envB "https://a.com")).1.queue ∧
      (("87121", 0) : String × Nat).2 ≤ 2 :=
  ⟨by decide,
   (C4_depth_bound envB "https://a.com" 5 (startCrawl envB "https://a.com") (by decide)).2
     ("87121", 0) (by decide)⟩

theorem catProcessEntry_categories (env : Env) (d : CrawlData) (url : String) (depth : Nat)
    (qrest : List (String × Nat)) :
    (catProcessEntry env d url depth qrest).categories = d.categories := rfl

theorem mainLoop_categories (env : Env) :
    ∀ (fuel : Nat) (d : CrawlData), d.categories = [] → 1 ≤ d.pages_crawled →
      (mainLoop env fuel d).1.categories = [] := by
  intro fuel
  induction fuel with
  | zero =>
    intro d hc hp
    exact hc
  | succ n ih =>
    intro d hc hp
    rw [mainLoop]
    by_cases hrun : d.running = true ∧ d.pages_crawled < d.max_pages
    · rw [if_pos hrun]
      rcases hq : d.queue with - | ⟨⟨url, depth⟩, qrest⟩
      · exact hc
      · dsimp only
        have hc1 : (mainProcessEntry env d url depth qrest).categories = [] := by
          rw [mainProcessEntry_categories env d url depth qrest hp]
          exact hc
        have hp1 : 1 ≤ (mainProcessEntry env d url depth qrest).pages_crawled := by
          rw [mainProcessEntry_pages]
          omega
        split
        · exact hc1
        · dsimp only
          refine ih _ ?_ ?_
          · split
            · rw [mainFallback_categories]
              exact hc1
            · exact hc1
          · split
            · rw [mainFallback_pages_nocats _ hc1]
              exact hp1
            · exact hp1
    · rw [if_neg hrun]
      exact hc

theorem catLoop_categories (env : Env) (category_name : String) :
    ∀ (fuel : Nat) (d : CrawlData),
      (catLoop env category_name fuel d).1.categories = d.categories := by
  intro fuel
  induction fuel with
  | zero =>
    intro d
    rfl
  | succ n ih =>
    intro d
    rw [catLoop]
    by_cases hrun : d.running = true ∧ d.pages_crawled < d.max_pages
    · rw [if_pos hrun]
      rcases hq : d.queue with - | ⟨⟨url, depth⟩, qrest⟩
      · rfl
      · dsimp only
        split
        · rfl
        · dsimp only
          rw [ih]
          split
          · rw [catFallback_categories]
            exact catProcessEntry_categories env d url depth qrest
          · exact catProcessEntry_categories env d url depth qrest
    · rw [if_neg hrun]

/-- C8 (amended): category extraction happens only on the dequeued entry
that brings the page counter to 1 and only when that fetch yields a
document; in particular once the page counter is at least 1 with an empty
Category list — as after a failed or non-HTML first fetch — no later page
of the session triggers extraction: the Category list stays empty for
every subsequent tick. -/
theorem C8_first_page_only (env : Env) (fuel : Nat) (d : CrawlData)
    (hc : d.categories = []) (hp : 1 ≤ d.pages_crawled) :
    (tick env fuel d).1.categories = [] := by
  rw [tick]
  split
  · split
    · exact mainLoop_categories env fuel d hc hp
    · dsimp only
      split
      · rw [catLoop_categories]
        exact hc
      · rw [catLoop_categories]
        exact hc
  · exact hc

/-- C8 counterexample: the first dequeued page fails to fetch, the second
fetch succeeds with HTML carrying a category link; the claim says category
extraction is still performed on that page, but the session ends the tick
with an empty Category list even though the extractor applied to that very
document finds a category. -/
theorem C8_counterexample :
    (tick env8 10 d8).1.categories = [] ∧
    extract_categories env8 doc8 "https://a.com/two" = [("n", "https://a.com/category/n")] ∧
    ("✅", "Crawled: https://a.com/two") ∈ (tick env8 10 d8).1.status ∧
    (tick env8 10 d8).1.results = [] := by
  decide

/-- Witness for C8 at a session that already counted its first page and
found no categories. -/
theorem C8_witness :
    (tick env8 3 { d8 with pages_crawled := 1 }).1.categories = [] :=
  C8_first_page_only env8 3 { d8 with pages_crawled := 1 } rfl (by decide)

/-- C1 counterexample: Scenario A (one reachable page, no category links,
no keyword, budget 8 not reached) ends the tick with empty results, empty
categories and a drained frontier, yet the running flag is still true: the
session is not Completed, because the frontier-empty exit skips the
phase-end fallback. -/
theorem C1_counterexample :
    (tick envA 20 (startCrawl envA "https://a.com")).1.running = true ∧
    (tick envA 20 (startCrawl envA "https://a.com")).1.results = [] ∧
    (tick envA 20 (startCrawl envA "https://a.com")).1.categories = [] ∧
    (tick envA 20 (startCrawl envA "https://a.com")).1.queue = [] := by
  decide

/-- C1 (amended): when the main-domain loop finds the Frontier empty
before the page budget is reached, it does not evaluate the phase-end
fallback: the tick only appends the frontier-drained status message and
returns with every other field — including the running flag — unchanged.
The fallback is evaluated only when the page counter reaches the
budget. -/
theorem C1_frontier_empty_no_fallback (env : Env) (fuel : Nat) (d : CrawlData)
    (hrun : d.running = true) (hcat : d.current_category = none)
    (hp : d.pages_crawled < d.max_pages) (hq : d.queue = []) :
    (tick env (fuel + 1) d).1 =
      { d with status := d.status ++
          [("ℹ️", "No more pages to crawl in main domain after " ++ toString d.pages_crawled ++ " pages.")] } := by
  rw [tick, if_pos hrun, hcat]
  dsimp only
  rw [mainLoop, if_pos ⟨hrun, hp⟩, hq, hcat]

/-- Witness for C1 at a concrete drained-frontier state. -/
theorem C1_witness :
    (tick envA 1 { d8 with queue := [] }).1 =
      { { d8 with queue := ([] : List (String × Nat)) } with
        status := ({ d8 with queue := [] } : CrawlData).status ++
          [("ℹ️", "No more pages to crawl in main domain after " ++
            toString ({ d8 with queue := [] } : CrawlData).pages_crawled ++ " pages.")] } :=
  C1_frontier_empty_no_fallback envA 0 { d8 with queue := [] } rfl rfl (by decide) rfl

theorem firstNameIdxAux_nodup (name : String) :
    ∀ (cats : List (String × String)) (i : Nat) (off : Int) (url : String),
      (cats.map Prod.fst).Nodup → cats.get? i = some (name, url) →
      firstNameIdxAux name off cats = off + (i : Int) := by
  intro cats
  induction cats with
  | nil =>
    intro i off url _ hget
    simp [List.get?] at hget
  | cons c cs ih =>
    intro i off url hnd hget
    simp only [firstNameIdxAux]
    by_cases hc : c.1 = name
    · rw [if_pos hc]
      cases i with
      | zero => simp
      | succ j =>
        exfalso
        rw [List.get?_cons_succ] at hget
        have hmem : (name, url) ∈ cs := List.get?_mem hget
        have hname : name ∈ cs.map Prod.fst := List.mem_map_of_mem Prod.fst hmem
        rw [List.map_cons, List.nodup_cons, hc] at hnd
        exact hnd.1 hname
    · rw [if_neg hc]
      cases i with
      | zero =>
        exfalso
        rw [List.get?_cons_zero] at hget
        injection hget with hh
        exact hc (by rw [hh])
      | succ j =>
        rw [List.get?_cons_succ] at hget
        rw [List.map_cons, List.nodup_cons] at hnd
        rw [ih j (off + 1) url hnd.2 hget]
        omega

/-- C9 (amended): the category-phase fallback finds the current index as
the first index whose category name equals the tick-initial category name.
When all names in the Category list are distinct and the current category
is entry `i`, this is `i`, and the transition behaves as the claim says:
to `CategoryCrawl(i+1)` with the frontier reset to the next category URL
at depth 0 and the page counter reset to 0 when `i+1` is in range, and to
Completed (running flag false, everything else untouched) otherwise.  With
repeated names the computed index can differ from `i` and the session can
revisit a category instead of completing. -/
theorem C9_next_category (d : CrawlData) (cats : List (String × String)) (i : Nat)
    (name url : String) (hnd : (cats.map Prod.fst).Nodup)
    (hget : cats.get? i = some (name, url)) (hcats : d.categories = cats) :
    (i + 1 < cats.length →
       (catFallback name d).current_category = some (cats.getD (i + 1) ("", "")) ∧
       (catFallback name d).queue = [((cats.getD (i + 1) ("", "")).2, 0)] ∧
       (catFallback name d).pages_crawled = 0 ∧
       (catFallback name d).running = d.running) ∧
    (cats.length ≤ i + 1 →
       (catFallback name d).running = false ∧
       (catFallback name d).current_category = d.current_category ∧
       (catFallback name d).queue = d.queue ∧
       (catFallback name d).pages_crawled = d.pages_crawled) := by
  have hidx : firstNameIdx cats name = (i : Int) := by
    have h0 := firstNameIdxAux_nodup name cats i 0 url hnd hget
    rw [firstNameIdx, h0]
    omega
  simp only [catFallback, hcats, hidx]
  constructor
  · intro hlt
    rw [if_pos (by omega : (i : Int) < (cats.length : Int) - 1)]
    have htn : ((i : Int) + 1).toNat = i + 1 := by omega
    rw [htn]
    exact ⟨rfl, rfl, rfl, rfl⟩
  · intro hge
    rw [if_neg (by omega : ¬ (i : Int) < (cats.length : Int) - 1)]
    exact ⟨rfl, rfl, rfl, rfl⟩

/-- C9 counterexample: the extractor can emit a Category list with a
repeated name (two URLs under the category path `n`); with the current
category being its last entry (index 1, so the claim requires a transition
to Completed), the tick instead re-targets the same category and keeps
running. -/
theorem C9_counterexample :
    extract_categories env9 doc9 "https://e.c" =
      [("n", "https://e.c/category/n"), ("n", "https://e.c/category/n/x")] ∧
    (tick env9 10 d9).1.running = true ∧
    (tick env9 10 d9).1.current_category = some ("n", "https://e.c/category/n/x") ∧
    (tick env9 10 d9).1.results = [] := by
  decide

/-- Witness for C9 on a duplicate-free category list. -/
theorem C9_witness :
    (catFallback "a"
        { d8 with categories := [("a", "ua"), ("b", "ub")], current_category := some ("a", "ua") }).current_category =
      some ("b", "ub") :=
  ((C9_next_category
      { d8 with categories := [("a", "ua"), ("b", "ub")], current_category := some ("a", "ua") }
      [("a", "ua"), ("b", "ub")] 0 "a" "ua" (by decide) rfl rfl).1 (by decide)).1
